import Mathlib

/-!
Verification of the conversation-orchestration core of the Realtime AI
backend (src/app2.py): a shallow embedding of `ConversationState.add_event`,
the tool functions, `process_tool_call`, the per-turn tool-calling loop
`stream_llm_response`, and the websocket receive loop's dispatch, together
with theorems about event sequencing, frame emission, history construction,
iteration bounds and error handling.

Modelling conventions:
- JSON values are the inductive `Json`; Python `json.dumps` is `jsonDumps`
  (default separators), and `json.loads` is the environment's `jsonParse`
  oracle, so that `json.loads (json.dumps x) = x` is used where the source
  round-trips its own serialized dicts.
- Python `str.strip` / `str.startswith` are `pyStrip` / `pyStartsWith`,
  character-list models that the kernel can evaluate.
- The Groq completion call, JSON parsing of model-supplied argument strings,
  and the success of each Supabase event insert are supplied by an `Env`
  record: `responses` is indexed by how many completion calls were made so
  far, `insertOk` by the sequence number being inserted (the source swallows
  insert exceptions, src/app2.py lines 87-90).
- A Python exception escaping a modelled function is an `Except.error`;
  awaiting and wall-clock sleeps are dropped (the loop is sequential).
- `LoopState` carries two instrumentation fields that no modelled branch
  reads: `invocations` records each call of `process_tool_call` (source
  lines 227 and 264) and `calls` counts completion-service calls (line 174).
-/

/-- JSON values, the data model of Python dicts/lists passed around app2.py. -/
inductive Json where
  | null : Json
  | bool : Bool → Json
  | num : Int → Json
  | str : String → Json
  | arr : List Json → Json
  | obj : List (String × Json) → Json
deriving Repr

/-- One character of a JSON-serialized string, with the two escapes that the
strings of this program can need (quote and backslash). -/
def escChar (c : Char) : String :=
  if c = Char.ofNat 34 then String.mk [Char.ofNat 92, Char.ofNat 34]
  else if c = Char.ofNat 92 then String.mk [Char.ofNat 92, Char.ofNat 92]
  else String.singleton c

/-- A JSON string literal: quoted and escaped. -/
def quoteJson (s : String) : String :=
  "\"" ++ String.join (s.data.map escChar) ++ "\""

mutual
/-- Python `json.dumps` with default separators (", " and ": "). -/
def jsonDumps : Json → String
  | Json.null => "null"
  | Json.bool true => "true"
  | Json.bool false => "false"
  | Json.num n => toString n
  | Json.str s => quoteJson s
  | Json.arr xs => "[" ++ jsonDumpsArr xs ++ "]"
  | Json.obj fs => "\x7b" ++ jsonDumpsObj fs ++ "\x7d"

/-- Serialize a JSON array's elements, comma-separated. -/
def jsonDumpsArr : List Json → String
  | [] => ""
  | x :: rest =>
    jsonDumps x ++ (if rest.isEmpty then "" else ", ") ++ jsonDumpsArr rest

/-- Serialize a JSON object's fields, comma-separated. -/
def jsonDumpsObj : List (String × Json) → String
  | [] => ""
  | (k, v) :: rest =>
    quoteJson k ++ ": " ++ jsonDumps v ++
      (if rest.isEmpty then "" else ", ") ++ jsonDumpsObj rest
end

/-- Python dict subscription `d[key]` on a JSON object: `none` models the
KeyError / TypeError path (missing key, or not a dict). -/
def getItem (j : Json) (key : String) : Option Json :=
  match j with
  | Json.obj fields => (fields.find? (fun kv => kv.1 == key)).map (fun kv => kv.2)
  | _ => none

/-- Python `str.strip()`: drop whitespace from both ends. -/
def pyStrip (s : String) : String :=
  String.mk (((s.data.dropWhile Char.isWhitespace).reverse.dropWhile
    Char.isWhitespace).reverse)

/-- Python `str.startswith(pre)`. -/
def pyStartsWith (s pre : String) : Bool :=
  List.isPrefixOf pre.data s.data

/-- One persisted row of the `events` table
(src/app2.py lines 77-86, the dict built by `ConversationState.add_event`). -/
structure Event where
  session_id : String
  event_type : String
  role : Option String
  content : Option String
  tool_call_id : Option String
  tool_name : Option String
  tool_result : Option String
  sequence_num : Nat
deriving Repr, DecidableEq

/-- One tool call requested by the model: id, function name, and the raw
(unparsed) argument string, exactly as the completion API returns them. -/
structure ToolCall where
  id : String
  name : String
  arguments : String
deriving Repr, DecidableEq

/-- One turn of the in-memory `messages` history handed back to the
completion service (the dicts appended at src/app2.py lines 200-203,
247-259 and 268-272). -/
inductive Turn where
  | user : String → Turn
  | assistant : String → Turn
  | assistantToolCalls : List ToolCall → Turn
  | tool : (tool_call_id : String) → (content : String) → Turn
deriving Repr, DecidableEq

/-- One outbound websocket frame (the `send_json` payloads of
src/app2.py lines 183, 195-197, 239-245 and 280). -/
inductive Frame where
  | text : (content : String) → (chunk : Bool) → Frame
  | tool_use : (tool : String) → (result : Json) → Frame
  | error : (content : String) → Frame
  | done : Frame
deriving Repr

/-- Whether a frame is the `done` frame. -/
def Frame.isDone : Frame → Bool
  | Frame.done => true
  | _ => false

/-- One completion response: optional text content and the (possibly empty)
list of requested tool calls, as read at src/app2.py lines 189 and 205. -/
structure LLMResponse where
  content : Option String
  tool_calls : List ToolCall
deriving Repr

/-- The external world of one session: the completion service (indexed by how
many calls were already made; `Except.error` is a raised provider exception,
line 181), `json.loads` on model-supplied argument strings (lines 214 and
266; `none` is a `JSONDecodeError`), and whether the Supabase insert of the
event with a given sequence number succeeds (lines 87-90). -/
structure Env where
  responses : Nat → Except String LLMResponse
  jsonParse : String → Option Json
  insertOk : Nat → Bool

/-- `ConversationState` (src/app2.py lines 59-65): session identity, the
unused `self.messages` list, and the event sequence counter. `start_time` is
wall-clock only and is not modelled. -/
structure ConversationState where
  session_id : String
  user_id : String
  messages : List Turn
  event_sequence : Nat
deriving Repr

/-- The full per-session state threaded through the loop: the
`ConversationState`, the persisted event rows, the frames sent so far, the
in-memory history, and the two instrumentation fields `invocations`
(arguments of every `process_tool_call` call) and `calls` (completion calls
made). -/
structure LoopState where
  conv : ConversationState
  db : List Event
  frames : List Frame
  messages : List Turn
  invocations : List (String × Json)
  calls : Nat
deriving Repr

/-- `ConversationState.add_event` (src/app2.py lines 67-90): increment the
sequence counter, build the row, insert it; an insert failure is swallowed,
so the row is persisted only when `insertOk` holds at its sequence number. -/
def add_event (env : Env) (s : LoopState) (event_type : String)
    (role content tool_call_id tool_name tool_result : Option String) :
    LoopState :=
  let seq := s.conv.event_sequence + 1
  let e : Event :=
    { session_id := s.conv.session_id, event_type := event_type, role := role,
      content := content, tool_call_id := tool_call_id, tool_name := tool_name,
      tool_result := tool_result, sequence_num := seq }
  { s with
    conv := { s.conv with event_sequence := seq },
    db := s.db ++ (if env.insertOk seq then [e] else []) }

/-- `fetch_user_data` (src/app2.py lines 92-99): the returned profile dict
(the 0.5 s sleep is dropped). -/
def fetch_user_data (user_id : String) : Json :=
  Json.obj
    [("user_id", Json.str user_id),
     ("name", Json.str ("User_" ++ String.mk (user_id.data.take 8))),
     ("tier", Json.str "premium"),
     ("created_at", Json.str "2024-01-15")]

/-- `search_knowledge_base` (src/app2.py lines 101-103): the returned
results dict (the 0.3 s sleep is dropped). -/
def search_knowledge_base (query : String) : Json :=
  Json.obj
    [("results", Json.arr
      [Json.str ("Result for '" ++ query ++ "' #1"),
       Json.str ("Result for '" ++ query ++ "' #2")])]

/-- `process_tool_call` (src/app2.py lines 142-149). The source returns
`json.dumps(result)`; here the result dict is returned and serialization is
applied at the use sites, so that `json.loads` of it at line 243 is the
identity. `Except.error` models a Python exception escaping: `KeyError` when
the required argument key is missing, `TypeError` when its value is not a
string. An unknown tool name returns the error dict, it does not raise. -/
def process_tool_call (tool_name : String) (tool_input : Json) :
    Except String Json :=
  if tool_name == "fetch_user_data" then
    match getItem tool_input "user_id" with
    | some (Json.str uid) => Except.ok (fetch_user_data uid)
    | some _ => Except.error "TypeError"
    | none => Except.error "KeyError: user_id"
  else if tool_name == "search_knowledge_base" then
    match getItem tool_input "query" with
    | some (Json.str q) => Except.ok (search_knowledge_base q)
    | some _ => Except.error "TypeError"
    | none => Except.error "KeyError: query"
  else Except.ok (Json.obj [("error", Json.str "Unknown tool")])

/-- The parsed arguments used by the first pass over a tool call
(src/app2.py lines 213-217): `json.loads` of the raw arguments, with the
empty dict substituted on `JSONDecodeError`. -/
def pass1Input (env : Env) (tc : ToolCall) : Json :=
  (env.jsonParse tc.arguments).getD (Json.obj [])

/-- The result recorded and streamed by the first pass (src/app2.py lines
226-230): `process_tool_call` on the fallback-parsed input, with the
structured error dict substituted when the executor raises. -/
def pass1Result (env : Env) (tc : ToolCall) : Json :=
  match process_tool_call tc.name (pass1Input env tc) with
  | Except.ok j => j
  | Except.error e => Json.obj [("error", Json.str e)]

/-- The first pass over one requested tool call (src/app2.py lines 209-245):
record the `tool_call` event (with the serialized fallback-parsed input as
content), execute, record the `tool_result` event, and stream the `tool_use`
frame carrying `json.loads` of the serialized result. -/
def processCallPass1 (env : Env) (tc : ToolCall) (s : LoopState) : LoopState :=
  let s1 := add_event env s "tool_call" none
    (some (jsonDumps (pass1Input env tc))) (some tc.id) (some tc.name) none
  let s2 := add_event env s1 "tool_result" none none
    (some tc.id) (some tc.name) (some (jsonDumps (pass1Result env tc)))
  { s2 with
    frames := s2.frames ++ [Frame.tool_use tc.name (pass1Result env tc)],
    invocations := s2.invocations ++ [(tc.name, pass1Input env tc)] }

/-- The first pass over all requested tool calls, in order. -/
def processPass1 (env : Env) (tcs : List ToolCall) (s : LoopState) : LoopState :=
  tcs.foldl (fun s tc => processCallPass1 env tc s) s

/-- The second pass over the requested tool calls (src/app2.py lines
261-276): for each call, re-parse the raw arguments (no fallback: inside the
`try`) and re-execute; on success append a tool-result history turn, on any
exception print and skip. Returns the result turns and the
`process_tool_call` invocations this pass makes (for a call whose arguments
do not parse, `json.loads` raises before `process_tool_call` is reached, so
there is no invocation; an executor exception happens after the invocation). -/
def processPass2 (env : Env) : List ToolCall → List Turn × List (String × Json)
  | [] => ([], [])
  | tc :: rest =>
    let here : List Turn × List (String × Json) :=
      match env.jsonParse tc.arguments with
      | none => ([], [])
      | some j =>
        match process_tool_call tc.name j with
        | Except.ok res => ([Turn.tool tc.id (jsonDumps res)], [(tc.name, j)])
        | Except.error _ => ([], [(tc.name, j)])
    let r := processPass2 env rest
    (here.1 ++ r.1, here.2 ++ r.2)

/-- The `response_text` variable (src/app2.py lines 187-190): the stripped
content when the content is truthy (neither absent nor the empty string),
`""` otherwise. -/
def responseText (r : LLMResponse) : String :=
  match r.content with
  | some c => if c = "" then "" else pyStrip c
  | none => ""

/-- The text part of one loop iteration (src/app2.py lines 186-203): when the
stripped text is non-empty and does not start with `"I'll"`, record the
`assistant_message` event and stream the `text` frame (line 191's filter);
when the stripped text is non-empty — filtered or not — append the assistant
turn to history (lines 199-203). -/
def textPhase (env : Env) (r : LLMResponse) (s : LoopState) : LoopState :=
  let t := responseText r
  let s :=
    if t ≠ "" ∧ pyStartsWith t "I'll" = false then
      let s1 := add_event env s "assistant_message" (some "assistant")
        (some t) none none none
      { s1 with frames := s1.frames ++ [Frame.text t true] }
    else s
  if t ≠ "" then { s with messages := s.messages ++ [Turn.assistant t] }
  else s

/-- The tool part of one loop iteration when tool calls are present
(src/app2.py lines 205-276): the first pass over the calls (events, frames,
executions), then the assistant-with-tool-calls history turn (lines 247-259,
ids, names and raw arguments verbatim), then the second pass's tool-result
history turns (lines 261-276). -/
def toolPhase (env : Env) (r : LLMResponse) (s : LoopState) : LoopState :=
  let s := processPass1 env r.tool_calls s
  let s := { s with
    messages := s.messages ++ [Turn.assistantToolCalls r.tool_calls] }
  let p2 := processPass2 env r.tool_calls
  { s with
    messages := s.messages ++ p2.1,
    invocations := s.invocations ++ p2.2 }

/-- One iteration body of the tool-calling loop after a successful completion
call (src/app2.py lines 186-276): the text phase always runs, the tool phase
only when the response carries tool calls. -/
def iterBody (env : Env) (r : LLMResponse) (s : LoopState) : LoopState :=
  let s1 := textPhase env r s
  if r.tool_calls.isEmpty then s1 else toolPhase env r s1

/-- The `while iteration < max_iterations` loop of `stream_llm_response`
(src/app2.py lines 162-278), with the remaining iteration budget as fuel.
Each iteration makes one completion call; on a provider exception it streams
the `error` frame and breaks (lines 181-184); otherwise it runs the body and
breaks when no tool calls were requested (lines 277-278). -/
def streamLoop (env : Env) : Nat → LoopState → LoopState
  | 0, s => s
  | Nat.succ fuel, s =>
    match env.responses s.calls with
    | Except.error e =>
      { s with calls := s.calls + 1, frames := s.frames ++ [Frame.error e] }
    | Except.ok r =>
      let s1 := iterBody env r { s with calls := s.calls + 1 }
      if r.tool_calls.isEmpty then s1 else streamLoop env fuel s1

/-- `stream_llm_response` (src/app2.py lines 151-280): run the loop with the
fixed budget `max_iterations = 3`, then stream the single `done` frame. (The
system-prompt prepend at lines 165-171 only shapes the request payload, which
the `responses` oracle absorbs.) -/
def stream_llm_response (env : Env) (s : LoopState) : LoopState :=
  let s1 := streamLoop env 3 s
  { s1 with frames := s1.frames ++ [Frame.done] }

/-- One accepted user message inside the websocket receive loop
(src/app2.py lines 307-311): record the `user_message` event, append the
user turn, and run the tool-calling loop. `content` is the already-stripped
user input. -/
def run_user_turn (env : Env) (s : LoopState) (content : String) : LoopState :=
  let s := add_event env s "user_message" (some "user") (some content)
    none none none
  let s := { s with messages := s.messages ++ [Turn.user content] }
  stream_llm_response env s

/-- Session setup in `websocket_endpoint` (src/app2.py lines 283-297): fresh
`ConversationState`, empty history, and the `session_start` event. (The
sessions-table row is a separate table with no claim about it.) -/
def init_session (env : Env) (session_id user_id : String) : LoopState :=
  let conv : ConversationState :=
    { session_id := session_id, user_id := user_id, messages := [],
      event_sequence := 0 }
  let s : LoopState :=
    { conv := conv, db := [], frames := [], messages := [], invocations := [],
      calls := 0 }
  add_event env s "session_start" none (some session_id) none none none

/-- A whole session's accepted user messages, run in order from a fresh
session state. -/
def run_session (env : Env) (session_id user_id : String)
    (inputs : List String) : LoopState :=
  inputs.foldl (run_user_turn env) (init_session env session_id user_id)

/-- What one inbound websocket frame decodes to, as `websocket.receive_json`
at src/app2.py line 300 sees it: text that is not JSON (where `receive_json`
raises), a JSON value that is not an object (where `data.get` raises
`AttributeError`), or a JSON object's fields. -/
inductive InFrame where
  | malformed : InFrame
  | nonObject : Json → InFrame
  | object : List (String × Json) → InFrame

/-- What the receive loop does with one inbound frame: hand the (stripped)
content to the tool-calling loop, silently continue, or raise out of the
`while True` loop — an escaping exception is caught by the handlers at
src/app2.py lines 313-317, which run session finalization, so `raise` ends
the receive loop. -/
inductive RecvOutcome where
  | handle : String → RecvOutcome
  | ignore : RecvOutcome
  | raise : RecvOutcome
deriving Repr, DecidableEq

/-- Field lookup on a decoded JSON object, Python `dict.get`. -/
def lookupField (fields : List (String × Json)) (key : String) : Option Json :=
  (fields.find? (fun kv => kv.1 == key)).map (fun kv => kv.2)

/-- The dispatch of one inbound frame in the receive loop (src/app2.py lines
299-311): a non-JSON frame makes `receive_json` raise; a non-object makes
`data.get` raise; an object with `type == "message"` reads
`data.get("content", "")` — a missing key defaults to `""` (ignored), a
non-string value (a JSON null becomes Python `None`) makes `.strip()` raise,
and a string is stripped and ignored when blank; any other `type` is
silently skipped. -/
def receive_step (f : InFrame) : RecvOutcome :=
  match f with
  | InFrame.malformed => RecvOutcome.raise
  | InFrame.nonObject _ => RecvOutcome.raise
  | InFrame.object fields =>
    match lookupField fields "type" with
    | some (Json.str t) =>
      if t = "message" then
        match lookupField fields "content" with
        | none => RecvOutcome.ignore
        | some (Json.str s) =>
          if pyStrip s = "" then RecvOutcome.ignore
          else RecvOutcome.handle (pyStrip s)
        | some _ => RecvOutcome.raise
      else RecvOutcome.ignore
    | _ => RecvOutcome.ignore

/-! ## Growth relations: the event rows and frames only ever grow -/

/-- All of `s`'s persisted rows survive into `t`, in place and order: rows
are only appended, never updated or deleted. -/
def DbGrows (s t : LoopState) : Prop := s.db <+: t.db

/-- `t`'s frames extend `s`'s, and none of the added frames is `done`. -/
def FramesGrow (s t : LoopState) : Prop :=
  ∃ new, t.frames = s.frames ++ new ∧ ∀ f ∈ new, f.isDone = false

theorem dbGrows_rfl (s : LoopState) : DbGrows s s := List.prefix_rfl

theorem dbGrows_trans {s t u : LoopState} (h1 : DbGrows s t)
    (h2 : DbGrows t u) : DbGrows s u := List.IsPrefix.trans h1 h2

theorem framesGrow_rfl (s : LoopState) : FramesGrow s s :=
  ⟨[], by simp⟩

theorem framesGrow_trans {s t u : LoopState} (h1 : FramesGrow s t)
    (h2 : FramesGrow t u) : FramesGrow s u := by
  obtain ⟨n1, e1, p1⟩ := h1
  obtain ⟨n2, e2, p2⟩ := h2
  refine ⟨n1 ++ n2, by simp [e2, e1], ?_⟩
  intro f hf
  rcases List.mem_append.mp hf with h | h
  · exact p1 f h
  · exact p2 f h

theorem add_event_dbGrows (env : Env) (s : LoopState) (a : String)
    (b c d e f : Option String) : DbGrows s (add_event env s a b c d e f) := by
  simp [DbGrows, add_event]

theorem add_event_framesGrow (env : Env) (s : LoopState) (a : String)
    (b c d e f : Option String) : FramesGrow s (add_event env s a b c d e f) :=
  ⟨[], by simp [add_event]⟩

theorem processCallPass1_dbGrows (env : Env) (tc : ToolCall) (s : LoopState) :
    DbGrows s (processCallPass1 env tc s) := by
  simp [DbGrows, processCallPass1, add_event, List.append_assoc]

theorem processCallPass1_framesGrow (env : Env) (tc : ToolCall)
    (s : LoopState) : FramesGrow s (processCallPass1 env tc s) :=
  ⟨[Frame.tool_use tc.name (pass1Result env tc)],
   by simp [processCallPass1, add_event, Frame.isDone]⟩

theorem processPass1_cons (env : Env) (tc : ToolCall) (rest : List ToolCall)
    (s : LoopState) :
    processPass1 env (tc :: rest) s =
      processPass1 env rest (processCallPass1 env tc s) := rfl

theorem processPass1_dbGrows (env : Env) (tcs : List ToolCall)
    (s : LoopState) : DbGrows s (processPass1 env tcs s) := by
  induction tcs generalizing s with
  | nil => exact dbGrows_rfl s
  | cons tc rest ih =>
    exact dbGrows_trans (processCallPass1_dbGrows env tc s)
      (processPass1_cons env tc rest s ▸ ih (processCallPass1 env tc s))

theorem processPass1_framesGrow (env : Env) (tcs : List ToolCall)
    (s : LoopState) : FramesGrow s (processPass1 env tcs s) := by
  induction tcs generalizing s with
  | nil => exact framesGrow_rfl s
  | cons tc rest ih =>
    exact framesGrow_trans (processCallPass1_framesGrow env tc s)
      (processPass1_cons env tc rest s ▸ ih (processCallPass1 env tc s))

theorem textPhase_dbGrows (env : Env) (r : LLMResponse) (s : LoopState) :
    DbGrows s (textPhase env r s) := by
  by_cases h2 : responseText r ≠ "" <;>
    by_cases hb : pyStartsWith (responseText r) "I'll" = false <;>
      simp [textPhase, h2, hb, DbGrows, add_event]

theorem textPhase_framesGrow (env : Env) (r : LLMResponse) (s : LoopState) :
    FramesGrow s (textPhase env r s) := by
  by_cases h2 : responseText r ≠ "" <;>
    by_cases hb : pyStartsWith (responseText r) "I'll" = false
  · exact ⟨[Frame.text (responseText r) true],
      by simp [textPhase, h2, hb, add_event, Frame.isDone]⟩
  · exact ⟨[], by simp [textPhase, h2, hb]⟩
  · exact ⟨[], by simp [textPhase, h2, hb]⟩
  · exact ⟨[], by simp [textPhase, h2, hb]⟩

theorem toolPhase_db (env : Env) (r : LLMResponse) (s : LoopState) :
    (toolPhase env r s).db = (processPass1 env r.tool_calls s).db := rfl

theorem toolPhase_frames (env : Env) (r : LLMResponse) (s : LoopState) :
    (toolPhase env r s).frames = (processPass1 env r.tool_calls s).frames := rfl

theorem toolPhase_dbGrows (env : Env) (r : LLMResponse) (s : LoopState) :
    DbGrows s (toolPhase env r s) := by
  have h := processPass1_dbGrows env r.tool_calls s
  simpa [DbGrows, toolPhase_db] using h

theorem toolPhase_framesGrow (env : Env) (r : LLMResponse) (s : LoopState) :
    FramesGrow s (toolPhase env r s) := by
  obtain ⟨n1, e1, p1⟩ := processPass1_framesGrow env r.tool_calls s
  exact ⟨n1, by simp [toolPhase_frames, e1], p1⟩

theorem iterBody_dbGrows (env : Env) (r : LLMResponse) (s : LoopState) :
    DbGrows s (iterBody env r s) := by
  cases h : r.tool_calls.isEmpty <;> simp [iterBody, h]
  · exact dbGrows_trans (textPhase_dbGrows env r s)
      (toolPhase_dbGrows env r (textPhase env r s))
  · exact textPhase_dbGrows env r s

theorem iterBody_framesGrow (env : Env) (r : LLMResponse) (s : LoopState) :
    FramesGrow s (iterBody env r s) := by
  cases h : r.tool_calls.isEmpty <;> simp [iterBody, h]
  · exact framesGrow_trans (textPhase_framesGrow env r s)
      (toolPhase_framesGrow env r (textPhase env r s))
  · exact textPhase_framesGrow env r s

theorem streamLoop_dbGrows (env : Env) (fuel : Nat) (s : LoopState) :
    DbGrows s (streamLoop env fuel s) := by
  induction fuel generalizing s with
  | zero => exact dbGrows_rfl s
  | succ fuel ih =>
    show DbGrows s (streamLoop env (fuel + 1) s)
    rw [streamLoop]
    cases hresp : env.responses s.calls with
    | error e => simp [DbGrows]
    | ok r =>
      have hbody : DbGrows s (iterBody env r { s with calls := s.calls + 1 }) :=
        iterBody_dbGrows env r { s with calls := s.calls + 1 }
      cases h : r.tool_calls.isEmpty <;> simp [h]
      · exact dbGrows_trans hbody (ih _)
      · exact hbody

theorem streamLoop_framesGrow (env : Env) (fuel : Nat) (s : LoopState) :
    FramesGrow s (streamLoop env fuel s) := by
  induction fuel generalizing s with
  | zero => exact framesGrow_rfl s
  | succ fuel ih =>
    show FramesGrow s (streamLoop env (fuel + 1) s)
    rw [streamLoop]
    cases hresp : env.responses s.calls with
    | error e =>
      exact ⟨[Frame.error e], by simp [Frame.isDone]⟩
    | ok r =>
      have hbody : FramesGrow s (iterBody env r { s with calls := s.calls + 1 }) :=
        iterBody_framesGrow env r { s with calls := s.calls + 1 }
      cases h : r.tool_calls.isEmpty <;> simp [h]
      · exact framesGrow_trans hbody (ih _)
      · exact hbody

/-! ## Calls, messages and the sequence-number invariant -/

theorem processCallPass1_calls (env : Env) (tc : ToolCall) (s : LoopState) :
    (processCallPass1 env tc s).calls = s.calls := rfl

theorem processCallPass1_messages (env : Env) (tc : ToolCall) (s : LoopState) :
    (processCallPass1 env tc s).messages = s.messages := rfl

theorem processPass1_calls (env : Env) (tcs : List ToolCall) (s : LoopState) :
    (processPass1 env tcs s).calls = s.calls := by
  induction tcs generalizing s with
  | nil => rfl
  | cons tc rest ih =>
    rw [processPass1_cons, ih, processCallPass1_calls]

theorem processPass1_messages (env : Env) (tcs : List ToolCall)
    (s : LoopState) : (processPass1 env tcs s).messages = s.messages := by
  induction tcs generalizing s with
  | nil => rfl
  | cons tc rest ih =>
    rw [processPass1_cons, ih, processCallPass1_messages]

theorem textPhase_calls (env : Env) (r : LLMResponse) (s : LoopState) :
    (textPhase env r s).calls = s.calls := by
  by_cases h2 : responseText r ≠ "" <;>
    by_cases hb : pyStartsWith (responseText r) "I'll" = false <;>
      simp [textPhase, h2, hb, add_event]

theorem toolPhase_calls (env : Env) (r : LLMResponse) (s : LoopState) :
    (toolPhase env r s).calls = s.calls := by
  show (processPass1 env r.tool_calls s).calls = s.calls
  exact processPass1_calls env r.tool_calls s

theorem iterBody_calls (env : Env) (r : LLMResponse) (s : LoopState) :
    (iterBody env r s).calls = s.calls := by
  cases h : r.tool_calls.isEmpty <;> simp [iterBody, h]
  · rw [toolPhase_calls, textPhase_calls]
  · exact textPhase_calls env r s

theorem streamLoop_calls_le (env : Env) (fuel : Nat) (s : LoopState) :
    (streamLoop env fuel s).calls ≤ s.calls + fuel := by
  induction fuel generalizing s with
  | zero => simp [streamLoop]
  | succ fuel ih =>
    rw [streamLoop]
    cases hresp : env.responses s.calls with
    | error e => simp
    | ok r =>
      have hstep : (iterBody env r { s with calls := s.calls + 1 }).calls =
          s.calls + 1 :=
        iterBody_calls env r { s with calls := s.calls + 1 }
      cases h : r.tool_calls.isEmpty <;> simp [h]
      · have h1 := ih (iterBody env r { s with calls := s.calls + 1 })
        rw [hstep] at h1
        omega
      · rw [hstep]
        omega

/-- The sequence-number invariant: the persisted rows carry exactly the
sequence numbers `1, 2, …, event_sequence`, in order. -/
def SeqOk (s : LoopState) : Prop :=
  s.db.map Event.sequence_num = List.range' 1 s.conv.event_sequence

theorem add_event_seqOk (env : Env) (s : LoopState) (a : String)
    (b c d e f : Option String)
    (hins : env.insertOk (s.conv.event_sequence + 1) = true)
    (h : SeqOk s) : SeqOk (add_event env s a b c d e f) := by
  simp only [SeqOk] at h ⊢
  simp only [add_event, hins]
  simp [h, List.range'_concat, Nat.add_comm]

theorem processCallPass1_seq (env : Env) (tc : ToolCall) (s : LoopState) :
    (processCallPass1 env tc s).conv.event_sequence =
      s.conv.event_sequence + 2 := rfl

theorem processCallPass1_seqOk (env : Env) (tc : ToolCall) (s : LoopState)
    (hins : ∀ n, env.insertOk n = true) (h : SeqOk s) :
    SeqOk (processCallPass1 env tc s) := by
  have h1 := add_event_seqOk env s "tool_call" none
    (some (jsonDumps (pass1Input env tc))) (some tc.id) (some tc.name) none
    (hins _) h
  have h2 := add_event_seqOk env _ "tool_result" none none
    (some tc.id) (some tc.name) (some (jsonDumps (pass1Result env tc)))
    (hins _) h1
  exact h2

theorem processPass1_seqOk (env : Env) (tcs : List ToolCall) (s : LoopState)
    (hins : ∀ n, env.insertOk n = true) (h : SeqOk s) :
    SeqOk (processPass1 env tcs s) := by
  induction tcs generalizing s with
  | nil => exact h
  | cons tc rest ih =>
    rw [processPass1_cons]
    exact ih _ (processCallPass1_seqOk env tc s hins h)

theorem textPhase_seqOk (env : Env) (r : LLMResponse) (s : LoopState)
    (hins : ∀ n, env.insertOk n = true) (h : SeqOk s) :
    SeqOk (textPhase env r s) := by
  by_cases h2 : responseText r ≠ "" <;>
    by_cases hb : pyStartsWith (responseText r) "I'll" = false
  · have hA := add_event_seqOk env s "assistant_message" (some "assistant")
      (some (responseText r)) none none none (hins _) h
    have hd : (textPhase env r s).db =
        (add_event env s "assistant_message" (some "assistant")
          (some (responseText r)) none none none).db := by
      simp [textPhase, h2, hb]
    have hc : (textPhase env r s).conv =
        (add_event env s "assistant_message" (some "assistant")
          (some (responseText r)) none none none).conv := by
      simp [textPhase, h2, hb]
    simp only [SeqOk] at hA ⊢
    rw [hd, hc]
    exact hA
  all_goals
    have hd : (textPhase env r s).db = s.db := by simp [textPhase, h2, hb]
    have hc : (textPhase env r s).conv = s.conv := by simp [textPhase, h2, hb]
    simp only [SeqOk] at h ⊢
    rw [hd, hc]
    exact h

theorem toolPhase_seqOk (env : Env) (r : LLMResponse) (s : LoopState)
    (hins : ∀ n, env.insertOk n = true) (h : SeqOk s) :
    SeqOk (toolPhase env r s) := by
  have hp := processPass1_seqOk env r.tool_calls s hins h
  simpa [SeqOk, toolPhase_db] using hp

theorem iterBody_seqOk (env : Env) (r : LLMResponse) (s : LoopState)
    (hins : ∀ n, env.insertOk n = true) (h : SeqOk s) :
    SeqOk (iterBody env r s) := by
  cases htc : r.tool_calls.isEmpty <;> simp [iterBody, htc]
  · exact toolPhase_seqOk env r _ hins (textPhase_seqOk env r s hins h)
  · exact textPhase_seqOk env r s hins h

theorem streamLoop_seqOk (env : Env) (fuel : Nat) (s : LoopState)
    (hins : ∀ n, env.insertOk n = true) (h : SeqOk s) :
    SeqOk (streamLoop env fuel s) := by
  induction fuel generalizing s with
  | zero => exact h
  | succ fuel ih =>
    rw [streamLoop]
    cases hresp : env.responses s.calls with
    | error e => exact h
    | ok r =>
      have hcalls : SeqOk { s with calls := s.calls + 1 } := h
      cases htc : r.tool_calls.isEmpty <;> simp [htc]
      · exact ih _ (iterBody_seqOk env r _ hins hcalls)
      · exact iterBody_seqOk env r _ hins hcalls

theorem stream_llm_response_seqOk (env : Env) (s : LoopState)
    (hins : ∀ n, env.insertOk n = true) (h : SeqOk s) :
    SeqOk (stream_llm_response env s) :=
  streamLoop_seqOk env 3 s hins h

theorem stream_llm_response_dbGrows (env : Env) (s : LoopState) :
    DbGrows s (stream_llm_response env s) :=
  streamLoop_dbGrows env 3 s

theorem run_user_turn_seqOk (env : Env) (s : LoopState) (content : String)
    (hins : ∀ n, env.insertOk n = true) (h : SeqOk s) :
    SeqOk (run_user_turn env s content) := by
  refine stream_llm_response_seqOk env _ hins ?_
  exact add_event_seqOk env s "user_message" (some "user") (some content)
    none none none (hins _) h

theorem dbGrows_messages (s : LoopState) (m : List Turn) :
    DbGrows s { s with messages := m } := List.prefix_rfl

theorem run_user_turn_dbGrows (env : Env) (s : LoopState) (content : String) :
    DbGrows s (run_user_turn env s content) := by
  unfold run_user_turn
  exact dbGrows_trans
    (dbGrows_trans (add_event_dbGrows env s _ _ _ _ _ _)
      (dbGrows_messages _ _))
    (stream_llm_response_dbGrows env _)

theorem init_session_seqOk (env : Env) (sid uid : String)
    (hins : ∀ n, env.insertOk n = true) :
    SeqOk (init_session env sid uid) := by
  refine add_event_seqOk env _ "session_start" none (some sid) none none none
    (hins _) ?_
  simp [SeqOk]

theorem foldl_run_user_turn_seqOk (env : Env) (inputs : List String)
    (s : LoopState) (hins : ∀ n, env.insertOk n = true) (h : SeqOk s) :
    SeqOk (inputs.foldl (run_user_turn env) s) := by
  induction inputs generalizing s with
  | nil => exact h
  | cons c rest ih => exact ih _ (run_user_turn_seqOk env s c hins h)

theorem foldl_run_user_turn_dbGrows (env : Env) (inputs : List String)
    (s : LoopState) : DbGrows s (inputs.foldl (run_user_turn env) s) := by
  induction inputs generalizing s with
  | nil => exact dbGrows_rfl s
  | cons c rest ih =>
    exact dbGrows_trans (run_user_turn_dbGrows env s c) (ih _)

theorem run_session_seqOk (env : Env) (sid uid : String)
    (inputs : List String) (hins : ∀ n, env.insertOk n = true) :
    SeqOk (run_session env sid uid inputs) :=
  foldl_run_user_turn_seqOk env inputs _ hins (init_session_seqOk env sid uid hins)

/-! ## History construction lemmas -/

theorem textPhase_of_no_content (env : Env) (r : LLMResponse) (s : LoopState)
    (hc : r.content = none) : textPhase env r s = s := by
  simp [textPhase, responseText, hc]

theorem toolPhase_messages (env : Env) (r : LLMResponse) (s : LoopState) :
    (toolPhase env r s).messages =
      s.messages ++ [Turn.assistantToolCalls r.tool_calls] ++
        (processPass2 env r.tool_calls).1 := by
  simp [toolPhase, processPass1_messages]

theorem processPass2_cons_ok (env : Env) (tc : ToolCall)
    (rest : List ToolCall) (j res : Json)
    (hp : env.jsonParse tc.arguments = some j)
    (he : process_tool_call tc.name j = Except.ok res) :
    processPass2 env (tc :: rest) =
      (Turn.tool tc.id (jsonDumps res) :: (processPass2 env rest).1,
       (tc.name, j) :: (processPass2 env rest).2) := by
  simp [processPass2, hp, he]

theorem processPass2_cons_noparse (env : Env) (tc : ToolCall)
    (rest : List ToolCall) (hp : env.jsonParse tc.arguments = none) :
    processPass2 env (tc :: rest) = processPass2 env rest := by
  simp [processPass2, hp]

theorem processPass2_cons_execfail (env : Env) (tc : ToolCall)
    (rest : List ToolCall) (j : Json) (e : String)
    (hp : env.jsonParse tc.arguments = some j)
    (he : process_tool_call tc.name j = Except.error e) :
    processPass2 env (tc :: rest) =
      ((processPass2 env rest).1,
       (tc.name, j) :: (processPass2 env rest).2) := by
  simp [processPass2, hp, he]

/-- When every requested call's raw arguments parse and its execution
succeeds, the second pass yields exactly one tool-result turn per call, in
order, each linked to its call's id. -/
theorem processPass2_turns_ok (env : Env) (tcs : List ToolCall)
    (hok : ∀ tc ∈ tcs, ∃ j res, env.jsonParse tc.arguments = some j ∧
      process_tool_call tc.name j = Except.ok res) :
    ∃ contents : List String, contents.length = tcs.length ∧
      (processPass2 env tcs).1 =
        List.zipWith (fun tc c => Turn.tool tc.id c) tcs contents := by
  induction tcs with
  | nil => exact ⟨[], rfl, rfl⟩
  | cons tc rest ih =>
    obtain ⟨j, res, hp, he⟩ := hok tc (List.mem_cons_self tc rest)
    obtain ⟨contents, hlen, hturns⟩ :=
      ih (fun tc2 h2 => hok tc2 (List.mem_cons_of_mem tc h2))
    refine ⟨jsonDumps res :: contents, by simp [hlen], ?_⟩
    rw [processPass2_cons_ok env tc rest j res hp he]
    simp [hturns]

/-! ## One-step unfolding lemmas for the loop -/

theorem streamLoop_succ_err (env : Env) (fuel : Nat) (s : LoopState)
    (e : String) (hresp : env.responses s.calls = Except.error e) :
    streamLoop env (fuel + 1) s =
      { s with calls := s.calls + 1, frames := s.frames ++ [Frame.error e] } := by
  rw [streamLoop, hresp]

theorem streamLoop_succ_ok_empty (env : Env) (fuel : Nat) (s : LoopState)
    (r : LLMResponse) (hresp : env.responses s.calls = Except.ok r)
    (hempty : r.tool_calls = []) :
    streamLoop env (fuel + 1) s = iterBody env r { s with calls := s.calls + 1 } := by
  rw [streamLoop, hresp]
  simp [hempty]

theorem streamLoop_succ_ok_tools (env : Env) (fuel : Nat) (s : LoopState)
    (r : LLMResponse) (hresp : env.responses s.calls = Except.ok r)
    (hne : r.tool_calls ≠ []) :
    streamLoop env (fuel + 1) s =
      streamLoop env fuel (iterBody env r { s with calls := s.calls + 1 }) := by
  rw [streamLoop, hresp]
  cases h : r.tool_calls with
  | nil => exact absurd h hne
  | cons a l => simp [h]

theorem iterBody_no_tools (env : Env) (r : LLMResponse) (s : LoopState)
    (htc : r.tool_calls = []) : iterBody env r s = textPhase env r s := by
  simp [iterBody, htc]

theorem iterBody_with_tools (env : Env) (r : LLMResponse) (s : LoopState)
    (hne : r.tool_calls ≠ []) :
    iterBody env r s = toolPhase env r (textPhase env r s) := by
  unfold iterBody
  cases h : r.tool_calls with
  | nil => exact absurd h hne
  | cons a l => simp [h]

/-- When the stripped text is non-empty and does not start with `"I'll"` and
the insert succeeds: event recorded, frame streamed, assistant turn appended. -/
theorem textPhase_streamed (env : Env) (r : LLMResponse) (s : LoopState)
    (h2 : responseText r ≠ "")
    (hb : pyStartsWith (responseText r) "I'll" = false)
    (hins : env.insertOk (s.conv.event_sequence + 1) = true) :
    textPhase env r s =
      { s with
        conv := { s.conv with event_sequence := s.conv.event_sequence + 1 },
        db := s.db ++
          [{ session_id := s.conv.session_id,
             event_type := "assistant_message", role := some "assistant",
             content := some (responseText r), tool_call_id := none,
             tool_name := none, tool_result := none,
             sequence_num := s.conv.event_sequence + 1 }],
        frames := s.frames ++ [Frame.text (responseText r) true],
        messages := s.messages ++ [Turn.assistant (responseText r)] } := by
  simp [textPhase, h2, hb, add_event, hins]

/-- When the stripped text is non-empty but starts with `"I'll"`: no event,
no frame, yet the assistant turn is still appended to history. -/
theorem textPhase_suppressed (env : Env) (r : LLMResponse) (s : LoopState)
    (h2 : responseText r ≠ "")
    (hb : pyStartsWith (responseText r) "I'll" = true) :
    textPhase env r s =
      { s with messages := s.messages ++ [Turn.assistant (responseText r)] } := by
  simp [textPhase, h2, hb]

/-! ## Concrete states and environments used by witnesses and counterexamples -/

/-- A session state as it stands right after `ConversationState.__init__`:
no events, no frames, no history, counter at zero. -/
def freshState (sid uid : String) : LoopState :=
  { conv :=
      { session_id := sid, user_id := uid, messages := [],
        event_sequence := 0 },
    db := [], frames := [], messages := [], invocations := [], calls := 0 }

/-- A list of sequence numbers is gapless from 1: it is exactly
`[1, 2, …, length]`, which also makes it strictly increasing with no
duplicates or reordering. -/
def Gapless (l : List Nat) : Prop := l = List.range' 1 l.length

/-! ## Claims -/

/-- C4: for every user turn, the tool-calling loop performs at most 3 calls
to the completion service — even if the provider requests tool calls on
every iteration — and (being a total function of fuel 3) always terminates
within 3 iterations. -/
theorem c4_loop_at_most_three_calls (env : Env) (s : LoopState) :
    (stream_llm_response env s).calls ≤ s.calls + 3 := by
  have h : (stream_llm_response env s).calls = (streamLoop env 3 s).calls := rfl
  rw [h]
  exact streamLoop_calls_le env 3 s

/-- C5: every invocation of `stream_llm_response` emits exactly one
`done` frame, and it is the last frame emitted for that turn, whether the
loop exits normally or via a provider error. -/
theorem c5_exactly_one_done_frame_last (env : Env) (s : LoopState) :
    ∃ new, (stream_llm_response env s).frames = s.frames ++ new ∧
      new.countP Frame.isDone = 1 ∧ new.getLast? = some Frame.done := by
  obtain ⟨n0, e0, p0⟩ := streamLoop_framesGrow env 3 s
  refine ⟨n0 ++ [Frame.done], ?_, ?_, ?_⟩
  · show (streamLoop env 3 s).frames ++ [Frame.done] =
      s.frames ++ (n0 ++ [Frame.done])
    rw [e0, List.append_assoc]
  · rw [List.countP_append]
    have hz : n0.countP Frame.isDone = 0 :=
      List.countP_eq_zero.mpr (by intro f hf; simp [p0 f hf])
    simp [hz, Frame.isDone]
  · simp [List.getLast?_concat]

/-- C6: whenever the completion call raises, the engine emits exactly one
`error` frame carrying the failure message followed only by the `done`
frame, persists no events for that iteration, leaves history and state
untouched, and makes no further completion call (no retry). -/
theorem c6_provider_failure (env : Env) (s : LoopState) (e : String)
    (hresp : env.responses s.calls = Except.error e) :
    (stream_llm_response env s).frames =
      s.frames ++ [Frame.error e, Frame.done] ∧
    (stream_llm_response env s).db = s.db ∧
    (stream_llm_response env s).messages = s.messages ∧
    (stream_llm_response env s).conv = s.conv ∧
    (stream_llm_response env s).calls = s.calls + 1 := by
  unfold stream_llm_response
  rw [show (3 : Nat) = 2 + 1 from rfl, streamLoop_succ_err env 2 s e hresp]
  exact ⟨by simp, rfl, rfl, rfl, rfl⟩

/-- An environment whose completion service always raises `"boom"`. -/
def c6wenv : Env :=
  { responses := fun _ => Except.error "boom",
    jsonParse := fun _ => none,
    insertOk := fun _ => true }

/-- Witness for C6 at a concrete failing provider call. -/
theorem c6_provider_failure_witness :
    (stream_llm_response c6wenv (freshState "s1" "u1")).frames =
      [Frame.error "boom", Frame.done] ∧
    (stream_llm_response c6wenv (freshState "s1" "u1")).db = [] ∧
    (stream_llm_response c6wenv (freshState "s1" "u1")).messages = [] ∧
    (stream_llm_response c6wenv (freshState "s1" "u1")).conv =
      (freshState "s1" "u1").conv ∧
    (stream_llm_response c6wenv (freshState "s1" "u1")).calls = 1 := by
  simpa [freshState] using
    c6_provider_failure c6wenv (freshState "s1" "u1") "boom" rfl

/-- C7: a tool call whose raw argument payload does not parse as JSON never
raises: the engine substitutes the empty argument set (the `tool_call`
event's content is the serialized empty dict) and still records the
`tool_call` event — followed by the `tool_result` event — and invokes the
executor on the empty dict, then continues. -/
theorem c7_malformed_arguments (env : Env) (tc : ToolCall) (s : LoopState)
    (hp : env.jsonParse tc.arguments = none)
    (hins : ∀ n, env.insertOk n = true) :
    (processCallPass1 env tc s).db = s.db ++
      [{ session_id := s.conv.session_id, event_type := "tool_call",
         role := none, content := some "\x7b\x7d",
         tool_call_id := some tc.id, tool_name := some tc.name,
         tool_result := none, sequence_num := s.conv.event_sequence + 1 },
       { session_id := s.conv.session_id, event_type := "tool_result",
         role := none, content := none, tool_call_id := some tc.id,
         tool_name := some tc.name,
         tool_result := some (jsonDumps (pass1Result env tc)),
         sequence_num := s.conv.event_sequence + 2 }] ∧
    (processCallPass1 env tc s).invocations =
      s.invocations ++ [(tc.name, Json.obj [])] := by
  have hinput : pass1Input env tc = Json.obj [] := by simp [pass1Input, hp]
  have hdumps : jsonDumps (Json.obj []) = "\x7b\x7d" := rfl
  constructor
  · simp [processCallPass1, add_event, hins _, hinput, hdumps]
  · simp [processCallPass1, add_event, hinput]

/-- An environment on which no argument string parses. -/
def c7wenv : Env :=
  { responses := fun _ => Except.ok { content := none, tool_calls := [] },
    jsonParse := fun _ => none,
    insertOk := fun _ => true }

/-- A tool call with non-parseable raw arguments. -/
def c7wtc : ToolCall :=
  { id := "call_7", name := "fetch_user_data", arguments := "\x7binvalid" }

/-- Witness for C7 at the concrete arguments string from the spec. -/
theorem c7_malformed_arguments_witness :
    (processCallPass1 c7wenv c7wtc (freshState "s1" "u1")).db =
      [{ session_id := "s1", event_type := "tool_call",
         role := none, content := some "\x7b\x7d",
         tool_call_id := some "call_7",
         tool_name := some "fetch_user_data",
         tool_result := none, sequence_num := 1 },
       { session_id := "s1", event_type := "tool_result",
         role := none, content := none, tool_call_id := some "call_7",
         tool_name := some "fetch_user_data",
         tool_result := some (jsonDumps (pass1Result c7wenv c7wtc)),
         sequence_num := 2 }] ∧
    (processCallPass1 c7wenv c7wtc (freshState "s1" "u1")).invocations =
      [("fetch_user_data", Json.obj [])] := by
  simpa [freshState, c7wtc] using
    c7_malformed_arguments c7wenv c7wtc (freshState "s1" "u1") rfl (fun _ => rfl)

/-- An environment whose first completion response is the deferred phrase
`"I'll handle it."` with no tool calls. -/
def c1env : Env :=
  { responses := fun _ =>
      Except.ok { content := some "I'll handle it.", tool_calls := [] },
    jsonParse := fun _ => none,
    insertOk := fun _ => true }

/-- Counterexample to C1 as stated: the response text `"I'll handle it."` is
non-empty, yet the turn produces no `assistant_message` event and no `text`
frame (only `done`), while the assistant turn is still appended to history —
the `"I'll"` check at src/app2.py line 191 special-cases this phrase. -/
theorem c1_counterexample :
    (stream_llm_response c1env (freshState "s1" "u1")).frames = [Frame.done] ∧
    (stream_llm_response c1env (freshState "s1" "u1")).db = [] ∧
    (stream_llm_response c1env (freshState "s1" "u1")).messages =
      [Turn.assistant "I'll handle it."] :=
  ⟨rfl, rfl, rfl⟩

/-- C1 as amended: for every completion response carrying text that is
non-empty after stripping and does not start with `"I'll"`, the engine
records the `assistant_message` event, streams the
`(type text, content, chunk true)` frame, and appends the assistant turn to
history (texts whose stripped form starts with `"I'll"` are appended to
history only — see C10). -/
theorem c1_text_response (env : Env) (s : LoopState) (r : LLMResponse)
    (c : String)
    (hresp : env.responses s.calls = Except.ok r)
    (hc : r.content = some c)
    (htc : r.tool_calls = [])
    (ht : pyStrip c ≠ "")
    (hill : pyStartsWith (pyStrip c) "I'll" = false)
    (hins : env.insertOk (s.conv.event_sequence + 1) = true) :
    (stream_llm_response env s).db = s.db ++
      [{ session_id := s.conv.session_id,
         event_type := "assistant_message", role := some "assistant",
         content := some (pyStrip c), tool_call_id := none,
         tool_name := none, tool_result := none,
         sequence_num := s.conv.event_sequence + 1 }] ∧
    (stream_llm_response env s).frames =
      s.frames ++ [Frame.text (pyStrip c) true, Frame.done] ∧
    (stream_llm_response env s).messages =
      s.messages ++ [Turn.assistant (pyStrip c)] := by
  have hc0 : c ≠ "" := by
    intro h
    apply ht
    rw [h]
    rfl
  have hrt : responseText r = pyStrip c := by simp [responseText, hc, hc0]
  have h2 : responseText r ≠ "" := by rw [hrt]; exact ht
  have hb : pyStartsWith (responseText r) "I'll" = false := by
    rw [hrt]; exact hill
  unfold stream_llm_response
  rw [show (3 : Nat) = 2 + 1 from rfl,
    streamLoop_succ_ok_empty env 2 s r hresp htc,
    iterBody_no_tools env r _ htc,
    textPhase_streamed env r { s with calls := s.calls + 1 } h2 hb hins, hrt]
  exact ⟨rfl, by simp, rfl⟩

/-- An environment whose first completion response is plain text with no
tool calls. -/
def c1wenv : Env :=
  { responses := fun _ =>
      Except.ok { content := some "Hello there!", tool_calls := [] },
    jsonParse := fun _ => none,
    insertOk := fun _ => true }

/-- Witness for the amended C1 at a concrete plain-text response. -/
theorem c1_text_response_witness :
    (stream_llm_response c1wenv (freshState "s1" "u1")).db =
      [{ session_id := "s1", event_type := "assistant_message",
         role := some "assistant", content := some "Hello there!",
         tool_call_id := none, tool_name := none, tool_result := none,
         sequence_num := 1 }] ∧
    (stream_llm_response c1wenv (freshState "s1" "u1")).frames =
      [Frame.text "Hello there!" true, Frame.done] ∧
    (stream_llm_response c1wenv (freshState "s1" "u1")).messages =
      [Turn.assistant "Hello there!"] := by
  simpa [freshState] using
    c1_text_response c1wenv (freshState "s1" "u1") _ "Hello there!"
      rfl rfl rfl (by decide) (by decide) rfl

/-- C10: a non-empty assistant text whose stripped form starts with `"I'll"`
is appended as an assistant turn to the in-memory history, but produces no
`assistant_message` event and no `text` frame, so the persisted log and the
client-visible stream diverge from the history sent back to the completion
service. -/
theorem c10_ill_text_suppressed (env : Env) (s : LoopState)
    (r : LLMResponse) (c : String)
    (hresp : env.responses s.calls = Except.ok r)
    (hc : r.content = some c)
    (htc : r.tool_calls = [])
    (ht : pyStrip c ≠ "")
    (hill : pyStartsWith (pyStrip c) "I'll" = true) :
    (stream_llm_response env s).db = s.db ∧
    (stream_llm_response env s).frames = s.frames ++ [Frame.done] ∧
    (stream_llm_response env s).messages =
      s.messages ++ [Turn.assistant (pyStrip c)] ∧
    (stream_llm_response env s).conv = s.conv := by
  have hc0 : c ≠ "" := by
    intro h
    apply ht
    rw [h]
    rfl
  have hrt : responseText r = pyStrip c := by simp [responseText, hc, hc0]
  have h2 : responseText r ≠ "" := by rw [hrt]; exact ht
  have hb : pyStartsWith (responseText r) "I'll" = true := by
    rw [hrt]; exact hill
  unfold stream_llm_response
  rw [show (3 : Nat) = 2 + 1 from rfl,
    streamLoop_succ_ok_empty env 2 s r hresp htc,
    iterBody_no_tools env r _ htc,
    textPhase_suppressed env r { s with calls := s.calls + 1 } h2 hb, hrt]
  exact ⟨rfl, rfl, rfl, rfl⟩

/-- An environment whose first completion response is a deferred phrase. -/
def c10wenv : Env :=
  { responses := fun _ =>
      Except.ok { content := some "I'll look into it.", tool_calls := [] },
    jsonParse := fun _ => none,
    insertOk := fun _ => true }

/-- Witness for C10 at a concrete `"I'll"`-prefixed response. -/
theorem c10_ill_text_suppressed_witness :
    (stream_llm_response c10wenv (freshState "s1" "u1")).db = [] ∧
    (stream_llm_response c10wenv (freshState "s1" "u1")).frames =
      [Frame.done] ∧
    (stream_llm_response c10wenv (freshState "s1" "u1")).messages =
      [Turn.assistant "I'll look into it."] ∧
    (stream_llm_response c10wenv (freshState "s1" "u1")).conv =
      (freshState "s1" "u1").conv := by
  simpa [freshState] using
    c10_ill_text_suppressed c10wenv (freshState "s1" "u1") _
      "I'll look into it." rfl rfl rfl (by decide) (by decide)

/-- A tool call whose raw arguments do not parse as JSON. -/
def c2tc : ToolCall :=
  { id := "call_2", name := "fetch_user_data", arguments := "\x7binvalid" }

/-- An environment on which no argument string parses, whose first response
requests exactly one tool call. -/
def c2env : Env :=
  { responses := fun _ => Except.ok { content := none, tool_calls := [c2tc] },
    jsonParse := fun _ => none,
    insertOk := fun _ => true }

/-- Counterexample to C2 as stated: a response with N = 1 tool call whose
arguments are `"\x7binvalid"` adds the assistant-with-calls turn but no
tool-result turn at all (the second pass at src/app2.py lines 261-276
catches the re-parse failure and silently skips the result turn), so the
history does not gain one result turn per call. -/
theorem c2_counterexample :
    (iterBody c2env { content := none, tool_calls := [c2tc] }
      (freshState "s1" "u1")).messages = [Turn.assistantToolCalls [c2tc]] ∧
    (iterBody c2env { content := none, tool_calls := [c2tc] }
      (freshState "s1" "u1")).messages.length = 1 :=
  ⟨rfl, rfl⟩

/-- C2 as amended: after processing a response with tool calls (and no
text), the history gains exactly one assistant turn carrying all N requested
calls verbatim, followed — for those calls whose raw arguments parse as JSON
and whose re-execution succeeds — by one tool-result turn per call, linked
to its call by id, in request order; calls whose arguments do not parse or
whose re-execution raises contribute no result turn. When every call parses
and executes, that is one result turn per call, in order. -/
theorem c2_history_turns (env : Env) (r : LLMResponse) (s : LoopState)
    (hc : r.content = none)
    (hne : r.tool_calls ≠ [])
    (hok : ∀ tc ∈ r.tool_calls, ∃ j res,
      env.jsonParse tc.arguments = some j ∧
      process_tool_call tc.name j = Except.ok res) :
    ∃ contents : List String, contents.length = r.tool_calls.length ∧
      (iterBody env r s).messages =
        s.messages ++ [Turn.assistantToolCalls r.tool_calls] ++
          List.zipWith (fun tc c => Turn.tool tc.id c) r.tool_calls contents := by
  obtain ⟨contents, hlen, hturns⟩ := processPass2_turns_ok env r.tool_calls hok
  refine ⟨contents, hlen, ?_⟩
  rw [iterBody_with_tools env r s hne, toolPhase_messages,
    textPhase_of_no_content env r s hc, hturns]

/-- A tool call with parseable (empty-object) arguments for a tool name
outside the registry, whose execution therefore succeeds with the
`Unknown tool` payload. -/
def c2wtc : ToolCall :=
  { id := "call_2w", name := "my_tool", arguments := "\x7b\x7d" }

/-- An environment that parses the empty-object argument string and whose
first response requests exactly one tool call. -/
def c2wenv : Env :=
  { responses := fun _ => Except.ok { content := none, tool_calls := [c2wtc] },
    jsonParse := fun a => if a = "\x7b\x7d" then some (Json.obj []) else none,
    insertOk := fun _ => true }

/-- Witness for the amended C2 at a concrete one-call response. -/
theorem c2_history_turns_witness :
    ∃ contents : List String,
      contents.length = ([c2wtc] : List ToolCall).length ∧
      (iterBody c2wenv { content := none, tool_calls := [c2wtc] }
        (freshState "s1" "u1")).messages =
        [] ++ [Turn.assistantToolCalls [c2wtc]] ++
          List.zipWith (fun tc c => Turn.tool tc.id c) [c2wtc] contents := by
  have hok : ∀ tc ∈ ({ content := none, tool_calls := [c2wtc] } :
      LLMResponse).tool_calls, ∃ j res,
      c2wenv.jsonParse tc.arguments = some j ∧
      process_tool_call tc.name j = Except.ok res := by
    intro tc htc
    have heq : tc = c2wtc := by simpa using htc
    subst heq
    exact ⟨Json.obj [], Json.obj [("error", Json.str "Unknown tool")],
      rfl, rfl⟩
  simpa [freshState] using
    c2_history_turns c2wenv { content := none, tool_calls := [c2wtc] }
      (freshState "s1" "u1") rfl (by simp) hok

/-- An environment on which the insert of the event with sequence number 2
fails (and is swallowed), while the completion service returns plain text. -/
def c3env : Env :=
  { responses := fun _ =>
      Except.ok { content := some "Hello there!", tool_calls := [] },
    jsonParse := fun _ => none,
    insertOk := fun n => !(n == 2) }

/-- Counterexample to C3 as stated: when the insert of the `user_message`
event (sequence number 2) fails — a failure `add_event` swallows by design
(src/app2.py lines 87-90) while still incrementing the counter — the session
`["hi"]` persists events with sequence numbers `[1, 3]`: a gap. -/
theorem c3_counterexample :
    (run_session c3env "s1" "u1" ["hi"]).db.map Event.sequence_num = [1, 3] ∧
    ¬ Gapless [1, 3] :=
  ⟨by decide, fun h => by
    have h2 : [1, 3] = List.range' 1 2 := h
    exact absurd h2 (by decide)⟩

/-- C3 as amended: provided every event insert succeeds, the sequence
numbers of the events persisted for a session form the gapless, strictly
increasing sequence 1, 2, …, with no duplicates or reordering, regardless
of how many user turns or tool-calling iterations occurred; and events are
only ever appended (each earlier state of the log survives as a row-for-row
initial segment — never updated or deleted). -/
theorem c3_sequence_gapless (env : Env) (sid uid : String)
    (inputs : List String) (hins : ∀ n, env.insertOk n = true) :
    Gapless ((run_session env sid uid inputs).db.map Event.sequence_num) ∧
    ∀ n : Nat, (run_session env sid uid (inputs.take n)).db <+:
      (run_session env sid uid inputs).db := by
  constructor
  · have h := run_session_seqOk env sid uid inputs hins
    simp only [SeqOk] at h
    show _ = List.range' 1 _
    rw [h]
    simp
  · intro n
    have key := foldl_run_user_turn_dbGrows env (inputs.drop n)
      (run_session env sid uid (inputs.take n))
    have heq : (inputs.drop n).foldl (run_user_turn env)
        (run_session env sid uid (inputs.take n)) =
        run_session env sid uid inputs := by
      show (inputs.drop n).foldl (run_user_turn env)
        ((inputs.take n).foldl (run_user_turn env)
          (init_session env sid uid)) = _
      rw [← List.foldl_append, List.take_append_drop]
      rfl
    rw [heq] at key
    exact key

/-- An environment with all inserts succeeding and a plain-text response. -/
def c3wenv : Env :=
  { responses := fun _ =>
      Except.ok { content := some "Hello there!", tool_calls := [] },
    jsonParse := fun _ => none,
    insertOk := fun _ => true }

/-- Witness for the amended C3 on a concrete one-message session. -/
theorem c3_sequence_gapless_witness :
    Gapless ((run_session c3wenv "s1" "u1" ["hi"]).db.map
      Event.sequence_num) ∧
    ∀ n : Nat, (run_session c3wenv "s1" "u1" (["hi"].take n)).db <+:
      (run_session c3wenv "s1" "u1" ["hi"]).db :=
  c3_sequence_gapless c3wenv "s1" "u1" ["hi"] (fun _ => rfl)

/-- Counterexample to C8 as stated: an inbound frame that is not valid JSON
is not silently ignored — `receive_json` raises, the exception escapes the
`while True` loop to the handlers at src/app2.py lines 313-317, and the
session is finalized instead of the receive loop continuing. -/
theorem c8_counterexample :
    receive_step InFrame.malformed = RecvOutcome.raise ∧
    RecvOutcome.raise ≠ RecvOutcome.ignore :=
  ⟨rfl, by decide⟩

/-- C8 as amended: `runTurn` is invoked (with the stripped content) if and
only if the inbound frame decodes to a JSON object whose `type` field is the
string `"message"` and whose `content` field is a string that is non-empty
after stripping; JSON-object frames with any other `type`, a missing
`content`, or blank string content are silently ignored with the loop
continuing; but frames that are not valid JSON, are not objects, or carry a
non-string `content` under `type "message"` raise out of the receive loop
and end the session instead. -/
theorem c8_dispatch (f : InFrame) (c : String) :
    receive_step f = RecvOutcome.handle c ↔
      ∃ fields s, f = InFrame.object fields ∧
        lookupField fields "type" = some (Json.str "message") ∧
        lookupField fields "content" = some (Json.str s) ∧
        pyStrip s ≠ "" ∧ c = pyStrip s := by
  constructor
  · intro h
    cases f with
    | malformed => simp [receive_step] at h
    | nonObject j => simp [receive_step] at h
    | object fields =>
      refine ⟨fields, ?_⟩
      dsimp only [receive_step] at h
      cases hlt : lookupField fields "type" with
      | none => rw [hlt] at h; simp at h
      | some tv =>
        rw [hlt] at h
        cases tv with
        | str t =>
          by_cases hm : t = "message"
          · subst hm
            simp only [if_pos] at h
            cases hlc : lookupField fields "content" with
            | none => rw [hlc] at h; simp at h
            | some cv =>
              rw [hlc] at h
              cases cv with
              | str sv =>
                by_cases hs : pyStrip sv = ""
                · simp [hs] at h
                · simp [hs] at h
                  exact ⟨sv, rfl, rfl, rfl, hs, h.symm⟩
              | null => simp at h
              | bool b => simp at h
              | num n => simp at h
              | arr xs => simp at h
              | obj fs2 => simp at h
          · simp [hm] at h
        | null => simp at h
        | bool b => simp at h
        | num n => simp at h
        | arr xs => simp at h
        | obj fs2 => simp at h
  · rintro ⟨fields, s2, rfl, h1, h2, h3, rfl⟩
    simp [receive_step, h1, h2, h3]

/-- C9 as amended: per requested tool call, `process_tool_call` is invoked
twice when (and only when) the raw arguments parse as JSON — both times with
the same parsed arguments (first pass src/app2.py line 227, second pass line
264) — and exactly once, with the empty-dict fallback, when they do not
parse (the second pass's `json.loads` raises before the executor is
reached). So the side effects of a parseable call happen twice, with equal
arguments. -/
theorem c9_executor_invocations (env : Env) (tc : ToolCall) (s : LoopState) :
    (iterBody env { content := none, tool_calls := [tc] } s).invocations =
      s.invocations ++
        (match env.jsonParse tc.arguments with
         | some j => [(tc.name, j), (tc.name, j)]
         | none => [(tc.name, Json.obj [])]) := by
  have hne : ({ content := none, tool_calls := [tc] } :
      LLMResponse).tool_calls ≠ [] := by simp
  rw [iterBody_with_tools _ _ _ hne,
    textPhase_of_no_content env { content := none, tool_calls := [tc] } s rfl]
  cases hp : env.jsonParse tc.arguments with
  | none =>
    simp [toolPhase, processPass1, processCallPass1, add_event, pass1Input,
      hp, processPass2]
  | some j =>
    cases he : process_tool_call tc.name j with
    | ok res =>
      simp [toolPhase, processPass1, processCallPass1, add_event, pass1Input,
        hp, he, processPass2]
    | error e =>
      simp [toolPhase, processPass1, processCallPass1, add_event, pass1Input,
        hp, he, processPass2]

/-- A tool call with non-parseable arguments for the C9 counterexample. -/
def c9tc : ToolCall :=
  { id := "call_9", name := "search_knowledge_base",
    arguments := "\x7bbroken" }

/-- An environment on which no argument string parses, whose first response
requests exactly the one call `c9tc`. -/
def c9env : Env :=
  { responses := fun _ => Except.ok { content := none, tool_calls := [c9tc] },
    jsonParse := fun _ => none,
    insertOk := fun _ => true }

/-- Counterexample to C9 as stated: for a call whose arguments do not parse,
the executor is invoked once (first pass, with the empty-dict fallback), not
twice — the second pass's `json.loads` raises before `process_tool_call`. -/
theorem c9_counterexample :
    (iterBody c9env { content := none, tool_calls := [c9tc] }
      (freshState "s1" "u1")).invocations =
      [("search_knowledge_base", Json.obj [])] ∧
    (iterBody c9env { content := none, tool_calls := [c9tc] }
      (freshState "s1" "u1")).invocations.length = 1 :=
  ⟨rfl, rfl⟩
